import Mathlib

/-!
Shallow embedding of the tab-timing background script
(`src/public/background.js`) of the Tabs-Manager Chrome extension.

Timestamps are modelled as `Int` milliseconds (JS `Date.now()`), tab ids as
`Nat`.  JS `Map`s are modelled as association lists with the same insertion
semantics (`set` replaces the first binding in place, otherwise appends at
the end; `delete` removes the binding; `get` returns the first binding).
JS truthiness tests (`if (activeTabId && activeStartTime)`) are modelled
faithfully: a value is truthy when it is present and nonzero.
-/

/-- A per-tab timing record, `{ openedAt, totalActiveTime }` in the script.
`currentActiveTime` models the extra field that `getTimingData` writes onto
the very record object stored in the map (JS aliasing through
`Object.fromEntries`); it is absent (`none`) on freshly created records. -/
structure TimingRecord where
  openedAt : Int
  totalActiveTime : Int
  currentActiveTime : Option Int := none
deriving DecidableEq, Repr

/-- Per-tab descriptive metadata kept in `tabInfoData`. -/
structure TabInfo where
  title : String
  url : String
  favIconUrl : Option String
  lastUpdated : Int
deriving DecidableEq, Repr

/-- One archived record of `closedTabsData`, built in the `onRemoved`
listener. -/
structure ClosedTabData where
  id : Nat
  closedAt : Int
  openedAt : Int
  totalActiveTime : Int
  totalTimeOpen : Int
  title : String
  url : String
  favIconUrl : Option String
deriving DecidableEq, Repr

/-- `Map.prototype.get`: first binding of the key, if any. -/
def mapGet {α : Type} (m : List (Nat × α)) (k : Nat) : Option α :=
  (m.find? (fun p => p.1 == k)).map (fun p => p.2)

/-- `Map.prototype.set`: replace the first binding in place, else append. -/
def mapSet {α : Type} : List (Nat × α) → Nat → α → List (Nat × α)
  | [], k, v => [(k, v)]
  | p :: rest, k, v => if p.1 == k then (k, v) :: rest else p :: mapSet rest k v

/-- `Map.prototype.delete`: drop every binding of the key. -/
def mapDelete {α : Type} (m : List (Nat × α)) (k : Nat) : List (Nat × α) :=
  m.filter (fun p => p.1 != k)

/-- `Map.prototype.has`. -/
def mapHas {α : Type} (m : List (Nat × α)) (k : Nat) : Bool :=
  (m.find? (fun p => p.1 == k)).isSome

/-- The mutable global state of the background script: `tabTimingData`,
`activeTabId`, `activeStartTime`, `tabInfoData`, `closedTabsData`,
`currentDay`. -/
structure BgState where
  tabTimingData : List (Nat × TimingRecord)
  activeTabId : Option Nat
  activeStartTime : Option Int
  tabInfoData : List (Nat × TabInfo)
  closedTabsData : List ClosedTabData
  currentDay : String
deriving DecidableEq, Repr

/-- The state right after the script loads, before any event: empty maps,
no active tab, day marker from startup. -/
def initState (day : String) : BgState :=
  { tabTimingData := []
    activeTabId := none
    activeStartTime := none
    tabInfoData := []
    closedTabsData := []
    currentDay := day }

/-- The map update of the shared accumulation block guarded by
`if (activeTabId && activeStartTime)` (JS truthiness: present and nonzero):
add `now - activeStartTime` to the previously active tab's
`totalActiveTime`, creating the record if missing. -/
def foldTiming (m : List (Nat × TimingRecord)) (activeTabId : Option Nat)
    (activeStartTime : Option Int) (now : Int) : List (Nat × TimingRecord) :=
  match activeTabId, activeStartTime with
  | some aid, some ast =>
    if aid != 0 && ast != 0 then
      let existingData := (mapGet m aid).getD
        { openedAt := now, totalActiveTime := 0 }
      let updated := { existingData with
        totalActiveTime := existingData.totalActiveTime + (now - ast) }
      mapSet m aid updated
    else m
  | _, _ => m

/-- The accumulation block as a state transformer: it touches only
`tabTimingData`. -/
def foldActive (s : BgState) (now : Int) : BgState :=
  { s with tabTimingData :=
      foldTiming s.tabTimingData s.activeTabId s.activeStartTime now }

/-- `startActiveTracking(tabId)`: close out the previous active interval,
make `tabId` the active tab starting `now`, and initialise its timing
record when absent. -/
def startActiveTracking (s : BgState) (tabId : Nat) (now : Int) : BgState :=
  let s1 := foldActive s now
  let s2 := { s1 with activeTabId := some tabId, activeStartTime := some now }
  if mapHas s2.tabTimingData tabId then s2
  else
    let fresh : TimingRecord := { openedAt := now, totalActiveTime := 0 }
    { s2 with tabTimingData := mapSet s2.tabTimingData tabId fresh }

/-- `stopActiveTracking()`: close out the active interval and clear the
active-tab state. -/
def stopActiveTracking (s : BgState) (now : Int) : BgState :=
  let s1 := foldActive s now
  { s1 with activeTabId := none, activeStartTime := none }

/-- The 30-second persistence timer: flush the in-progress interval into
`totalActiveTime` and re-base `activeStartTime` to `now`. -/
def periodicFlush (s : BgState) (now : Int) : BgState :=
  match s.activeTabId, s.activeStartTime with
  | some aid, some ast =>
    if aid != 0 && ast != 0 then
      { foldActive s now with activeStartTime := some now }
    else s
  | _, _ => s

/-- The creation / update payload of a host tab event (only the fields the
script reads). -/
structure TabArg where
  title : Option String
  url : Option String
  favIconUrl : Option String
deriving DecidableEq, Repr

/-- `updateTabInfo(tabId, tab)`: record title/url/icon metadata, skipping
tabs with no url or an internal `chrome://` url. -/
def updateTabInfo (s : BgState) (tabId : Nat) (tab : TabArg) (now : Int) : BgState :=
  match tab.url with
  | some u =>
    if u != "" && !(u.startsWith "chrome://") then
      let tabInfo : TabInfo :=
        { title := (tab.title.filter (fun t => t != "")).getD "Untitled Tab"
          url := u
          favIconUrl := tab.favIconUrl
          lastUpdated := now }
      { s with tabInfoData := mapSet s.tabInfoData tabId tabInfo }
    else s
  | none => s

/-- JS truthiness of the optional `activeStartTime`. -/
def truthyTime : Option Int → Bool
  | none => false
  | some t => t != 0

/-- The `chrome.tabs.onRemoved` listener: stop tracking when the removed
tab was active, build a `ClosedTabData` from the timing record (when one
exists), prepend it to `closedTabsData` capped at 100, and drop the tab
from both per-tab maps. -/
def onRemoved (s : BgState) (tabId : Nat) (now : Int) : BgState :=
  let s1 := if s.activeTabId == some tabId then stopActiveTracking s now else s
  let s2 :=
    match mapGet s1.tabTimingData tabId with
    | some timingData =>
      let finalActiveTime :=
        if s1.activeTabId == some tabId && truthyTime s1.activeStartTime then
          timingData.totalActiveTime + (now - s1.activeStartTime.getD 0)
        else timingData.totalActiveTime
      let storedTabInfo := mapGet s1.tabInfoData tabId
      let closedTabData : ClosedTabData :=
        { id := tabId
          closedAt := now
          openedAt := timingData.openedAt
          totalActiveTime := finalActiveTime
          totalTimeOpen := now - timingData.openedAt
          title := (storedTabInfo.map TabInfo.title).getD "Untitled Tab"
          url := (storedTabInfo.map TabInfo.url).getD "Unknown"
          favIconUrl := storedTabInfo.bind TabInfo.favIconUrl }
      let grown := closedTabData :: s1.closedTabsData
      { s1 with closedTabsData :=
          if grown.length > 100 then grown.take 100 else grown }
    | none => s1
  { s2 with tabTimingData := mapDelete s2.tabTimingData tabId
            tabInfoData := mapDelete s2.tabInfoData tabId }

/-- The minute timer doing daily cleanup: clear `closedTabsData` and adopt
the new day marker when the calendar day changed. -/
def dailyCleanup (s : BgState) (today : String) : BgState :=
  if today != s.currentDay then
    { s with currentDay := today, closedTabsData := [] }
  else s

/-- The `getTimingData` message branch.  `Object.fromEntries(tabTimingData)`
shares the record objects with the map, so writing
`currentData[activeTabId].currentActiveTime = duration` also mutates the
stored record; the returned mapping and the new stored map are therefore
the same list. -/
def handleGetTimingData (s : BgState) (now : Int) :
    BgState × (List (Nat × TimingRecord) × Option Nat) :=
  match s.activeTabId, s.activeStartTime with
  | some aid, some ast =>
    if aid != 0 && ast != 0 then
      match mapGet s.tabTimingData aid with
      | some r =>
        let augmented := { r with currentActiveTime := some (now - ast) }
        let m := mapSet s.tabTimingData aid augmented
        ({ s with tabTimingData := m }, (m, s.activeTabId))
      | none => (s, (s.tabTimingData, s.activeTabId))
    else (s, (s.tabTimingData, s.activeTabId))
  | _, _ => (s, (s.tabTimingData, s.activeTabId))

/-- The `updateTabTiming` message branch: overwrite the record for `tabId`
with the caller-supplied one and answer `{success: true}`. -/
def handleUpdateTabTiming (s : BgState) (tabId : Nat) (timingData : TimingRecord) :
    BgState × Bool :=
  ({ s with tabTimingData := mapSet s.tabTimingData tabId timingData }, true)

/-- The `getClosedTabs` message branch: answer with the archive, touching
nothing. -/
def handleGetClosedTabs (s : BgState) : BgState × List ClosedTabData :=
  (s, s.closedTabsData)

/-- A primitive value of a JS response object. -/
inductive RespVal where
  | b (v : Bool)
  | n (v : Nat)
  | s (v : String)
deriving DecidableEq, Repr

/-- The `reopenTab` message branch.  The host call
`chrome.tabs.create({url, active:false}, cb)` either fails
(`chrome.runtime.lastError`) or yields the new tab; that outcome is the
`hostResult` argument.  The response object is modelled as its literal
key/value list; the branch itself never touches the stores. -/
def handleReopenTab (s : BgState) (url title : String)
    (hostResult : Except String Nat) : BgState × List (String × RespVal) :=
  match hostResult with
  | Except.error msg => (s, [("success", RespVal.b false), ("error", RespVal.s msg)])
  | Except.ok newTabId => (s, [("success", RespVal.b true), ("tabId", RespVal.n newTabId)])

/-- Every state-changing entry point of the background script, as one
event alphabet for traces. -/
inductive Op where
  | activate (tabId : Nat)
  | deactivate
  | flush
  | remove (tabId : Nat)
  | updateInfo (tabId : Nat) (tab : TabArg)
  | msgGetTiming
  | msgGetClosed
  | msgUpdateTiming (tabId : Nat) (timingData : TimingRecord)
  | msgReopen (url title : String) (hostResult : Except String Nat)
  | cleanup (today : String)

/-- Apply one event at wall-clock time `now`. -/
def applyOp (s : BgState) (op : Op) (now : Int) : BgState :=
  match op with
  | Op.activate tabId => startActiveTracking s tabId now
  | Op.deactivate => stopActiveTracking s now
  | Op.flush => periodicFlush s now
  | Op.remove tabId => onRemoved s tabId now
  | Op.updateInfo tabId tab => updateTabInfo s tabId tab now
  | Op.msgGetTiming => (handleGetTimingData s now).1
  | Op.msgGetClosed => (handleGetClosedTabs s).1
  | Op.msgUpdateTiming tabId td => (handleUpdateTabTiming s tabId td).1
  | Op.msgReopen url title hostResult => (handleReopenTab s url title hostResult).1
  | Op.cleanup today => dailyCleanup s today

/-- Run a timestamped event trace. -/
def runTrace (s : BgState) : List (Op × Int) → BgState
  | [] => s
  | e :: rest => runTrace (applyOp s e.1 e.2) rest

/-- The four event kinds of the active-time accounting claim: activation,
deactivation, periodic flush, removal. -/
def isTimedEv : Op → Bool
  | Op.activate _ => true
  | Op.deactivate => true
  | Op.flush => true
  | Op.remove _ => true
  | _ => false

/-- Is the event the wholesale `updateTabTiming` overwrite? -/
def isUpdateMsg : Op → Bool
  | Op.msgUpdateTiming _ _ => true
  | _ => false

/-- Is the event a daily-cleanup timer tick? -/
def isCleanupOp : Op → Bool
  | Op.cleanup _ => true
  | _ => false

/-- Timestamps of a trace are non-decreasing and start no earlier than
`t`. -/
def monoTimesB (t : Int) : List (Op × Int) → Bool
  | [] => true
  | e :: rest => decide (t ≤ e.2) && monoTimesB e.2 rest

/-- The timestamp of the last event, `t` for the empty trace. -/
def lastTimeD (t : Int) : List (Op × Int) → Int
  | [] => t
  | e :: rest => lastTimeD e.2 rest

/-- Sum of every stored `totalActiveTime`. -/
def sumTotalActive (m : List (Nat × TimingRecord)) : Int :=
  (m.map (fun p => p.2.totalActiveTime)).sum

/-- The in-progress interval given the active-tab fields: `now` minus
`activeStartTime` when a tab is active, else zero. -/
def inProgressOf (activeTabId : Option Nat) (activeStartTime : Option Int)
    (now : Int) : Int :=
  match activeTabId, activeStartTime with
  | some _, some ast => now - ast
  | _, _ => 0

/-- The in-progress interval of the currently active tab of a state. -/
def inProgress (s : BgState) (now : Int) : Int :=
  inProgressOf s.activeTabId s.activeStartTime now

/-! ### Association-list lemmas -/

theorem mapGet_cons {α : Type} (p : Nat × α) (m : List (Nat × α)) (k : Nat) :
    mapGet (p :: m) k = if p.1 = k then some p.2 else mapGet m k := by
  by_cases h : p.1 = k
  · rw [if_pos h]
    unfold mapGet
    rw [List.find?_cons_of_pos _ (by simpa using h), Option.map_some']
  · rw [if_neg h]
    unfold mapGet
    rw [List.find?_cons_of_neg _ (by simpa using h)]

theorem mapSet_cons {α : Type} (p : Nat × α) (m : List (Nat × α)) (k : Nat) (v : α) :
    mapSet (p :: m) k v = if p.1 = k then (k, v) :: m else p :: mapSet m k v := by
  by_cases h : p.1 = k <;> simp [mapSet, h]

theorem mapDelete_cons {α : Type} (p : Nat × α) (m : List (Nat × α)) (k : Nat) :
    mapDelete (p :: m) k = if p.1 = k then mapDelete m k else p :: mapDelete m k := by
  by_cases h : p.1 = k <;> simp [mapDelete, List.filter_cons, h]

theorem mapGet_mapSet_self {α : Type} (m : List (Nat × α)) (k : Nat) (v : α) :
    mapGet (mapSet m k v) k = some v := by
  induction m with
  | nil => simp [mapSet, mapGet_cons]
  | cons p rest ih =>
    rw [mapSet_cons]
    by_cases h : p.1 = k
    · rw [if_pos h, mapGet_cons, if_pos rfl]
    · rw [if_neg h, mapGet_cons, if_neg h]
      exact ih

theorem mapGet_mapSet_ne {α : Type} (m : List (Nat × α)) (k j : Nat) (v : α)
    (h : j ≠ k) : mapGet (mapSet m k v) j = mapGet m j := by
  have hkj : ¬ k = j := fun hh => h hh.symm
  induction m with
  | nil => simp [mapSet, mapGet_cons, mapGet, hkj]
  | cons p rest ih =>
    rw [mapSet_cons]
    by_cases hpk : p.1 = k
    · have hpj : ¬ p.1 = j := by rw [hpk]; exact hkj
      rw [if_pos hpk, mapGet_cons, if_neg hkj, mapGet_cons, if_neg hpj]
    · rw [if_neg hpk, mapGet_cons, mapGet_cons]
      by_cases hpj : p.1 = j
      · rw [if_pos hpj, if_pos hpj]
      · rw [if_neg hpj, if_neg hpj]
        exact ih

theorem mapGet_mapDelete_self {α : Type} (m : List (Nat × α)) (k : Nat) :
    mapGet (mapDelete m k) k = none := by
  induction m with
  | nil => rfl
  | cons p rest ih =>
    rw [mapDelete_cons]
    by_cases h : p.1 = k
    · rw [if_pos h]; exact ih
    · rw [if_neg h, mapGet_cons, if_neg h]; exact ih

theorem mapGet_mapDelete_ne {α : Type} (m : List (Nat × α)) (k j : Nat)
    (h : j ≠ k) : mapGet (mapDelete m k) j = mapGet m j := by
  induction m with
  | nil => rfl
  | cons p rest ih =>
    rw [mapDelete_cons]
    by_cases hpk : p.1 = k
    · have hpj : ¬ p.1 = j := by rw [hpk]; exact fun hh => h hh.symm
      rw [if_pos hpk, mapGet_cons, if_neg hpj]
      exact ih
    · rw [if_neg hpk, mapGet_cons, mapGet_cons]
      by_cases hpj : p.1 = j
      · rw [if_pos hpj, if_pos hpj]
      · rw [if_neg hpj, if_neg hpj]
        exact ih

theorem mapSet_same {α : Type} (m : List (Nat × α)) (k : Nat) (v : α)
    (h : mapGet m k = some v) : mapSet m k v = m := by
  induction m with
  | nil => simp [mapGet] at h
  | cons p rest ih =>
    rw [mapGet_cons] at h
    rw [mapSet_cons]
    by_cases hpk : p.1 = k
    · rw [if_pos hpk] at h
      rw [if_pos hpk]
      obtain ⟨a, b⟩ := p
      simp only at hpk
      simp only [Option.some.injEq] at h
      rw [hpk, h]
    · rw [if_neg hpk] at h
      rw [if_neg hpk, ih h]

theorem mapGet_mem {α : Type} (m : List (Nat × α)) (k : Nat) (v : α)
    (h : mapGet m k = some v) : (k, v) ∈ m := by
  induction m with
  | nil => simp [mapGet] at h
  | cons p rest ih =>
    rw [mapGet_cons] at h
    by_cases hpk : p.1 = k
    · rw [if_pos hpk] at h
      obtain ⟨a, b⟩ := p
      simp only at hpk
      simp only [Option.some.injEq] at h
      rw [← hpk, ← h]
      exact List.mem_cons_self _ _
    · rw [if_neg hpk] at h
      exact List.mem_cons_of_mem _ (ih h)

theorem mem_mapSet {α : Type} (m : List (Nat × α)) (k : Nat) (v : α) (q : Nat × α)
    (h : q ∈ mapSet m k v) : q = (k, v) ∨ q ∈ m := by
  induction m with
  | nil => simp [mapSet] at h; left; exact h
  | cons p rest ih =>
    rw [mapSet_cons] at h
    by_cases hpk : p.1 = k
    · rw [if_pos hpk] at h
      rcases List.mem_cons.mp h with h1 | h1
      · left; exact h1
      · right; exact List.mem_cons_of_mem _ h1
    · rw [if_neg hpk] at h
      rcases List.mem_cons.mp h with h1 | h1
      · right; rw [h1]; exact List.mem_cons_self _ _
      · rcases ih h1 with h2 | h2
        · left; exact h2
        · right; exact List.mem_cons_of_mem _ h2

theorem mapHas_eq {α : Type} (m : List (Nat × α)) (k : Nat) :
    mapHas m k = (mapGet m k).isSome := by
  cases h : m.find? (fun p => p.1 == k) <;> simp [mapHas, mapGet, h]

/-! ### Sum lemmas for the time-accounting invariant -/

theorem sumTotalActive_cons (p : Nat × TimingRecord) (m : List (Nat × TimingRecord)) :
    sumTotalActive (p :: m) = p.2.totalActiveTime + sumTotalActive m := by
  simp [sumTotalActive]

theorem sumTotalActive_mapSet (m : List (Nat × TimingRecord)) (k : Nat) (v : TimingRecord) :
    sumTotalActive (mapSet m k v) =
      sumTotalActive m + v.totalActiveTime
        - ((mapGet m k).map TimingRecord.totalActiveTime).getD 0 := by
  induction m with
  | nil => simp [mapSet, mapGet, sumTotalActive]
  | cons p rest ih =>
    rw [mapSet_cons]
    by_cases hpk : p.1 = k
    · rw [if_pos hpk, sumTotalActive_cons, sumTotalActive_cons, mapGet_cons, if_pos hpk]
      simp only [Option.map_some', Option.getD_some]
      ring
    · rw [if_neg hpk, sumTotalActive_cons, sumTotalActive_cons, ih, mapGet_cons, if_neg hpk]
      ring

/-- Every stored record has nonnegative accumulated time. -/
def recsNonneg (m : List (Nat × TimingRecord)) : Prop :=
  ∀ p ∈ m, 0 ≤ p.2.totalActiveTime

theorem recsNonneg_mapSet (m : List (Nat × TimingRecord)) (k : Nat) (v : TimingRecord)
    (hm : recsNonneg m) (hv : 0 ≤ v.totalActiveTime) : recsNonneg (mapSet m k v) := by
  intro p hp
  rcases mem_mapSet m k v p hp with h | h
  · rw [h]; exact hv
  · exact hm p h

theorem recsNonneg_mapDelete (m : List (Nat × TimingRecord)) (k : Nat)
    (hm : recsNonneg m) : recsNonneg (mapDelete m k) := by
  intro p hp
  exact hm p (List.mem_of_mem_filter hp)

theorem sumTotalActive_mapDelete_le (m : List (Nat × TimingRecord)) (k : Nat)
    (hm : recsNonneg m) : sumTotalActive (mapDelete m k) ≤ sumTotalActive m := by
  induction m with
  | nil => simp [mapDelete]
  | cons p rest ih =>
    have hrest := ih (fun r hr => hm r (List.mem_cons_of_mem _ hr))
    have hp0 : 0 ≤ p.2.totalActiveTime := hm p (List.mem_cons_self _ _)
    rw [mapDelete_cons]
    by_cases h : p.1 = k
    · rw [if_pos h, sumTotalActive_cons]
      linarith
    · rw [if_neg h, sumTotalActive_cons, sumTotalActive_cons]
      linarith

theorem getD_tot_nonneg (m : List (Nat × TimingRecord)) (k : Nat)
    (hm : recsNonneg m) :
    0 ≤ ((mapGet m k).map TimingRecord.totalActiveTime).getD 0 := by
  cases h : mapGet m k with
  | none => simp
  | some r =>
    have := hm (k, r) (mapGet_mem m k r h)
    simpa using this

/-! ### Facts about the accumulation block -/

theorem getD_tot (o : Option TimingRecord) (r0 : TimingRecord) :
    (o.getD r0).totalActiveTime
      = (o.map TimingRecord.totalActiveTime).getD r0.totalActiveTime := by
  cases o <;> rfl

theorem foldTiming_none_left (m : List (Nat × TimingRecord)) (astO : Option Int)
    (now : Int) : foldTiming m none astO now = m := by
  cases astO <;> rfl

theorem foldTiming_none_right (m : List (Nat × TimingRecord)) (aidO : Option Nat)
    (now : Int) : foldTiming m aidO none now = m := by
  cases aidO <;> rfl

theorem foldTiming_some_some (m : List (Nat × TimingRecord)) (aid : Nat) (ast now : Int) :
    foldTiming m (some aid) (some ast) now =
      if aid != 0 && ast != 0 then
        mapSet m aid
          { ((mapGet m aid).getD { openedAt := now, totalActiveTime := 0 }) with
              totalActiveTime :=
                ((mapGet m aid).getD
                  { openedAt := now, totalActiveTime := 0 }).totalActiveTime
                + (now - ast) }
      else m := rfl

theorem inProgressOf_none_left (astO : Option Int) (now : Int) :
    inProgressOf none astO now = 0 := by
  cases astO <;> rfl

theorem inProgressOf_none_right (aidO : Option Nat) (now : Int) :
    inProgressOf aidO none now = 0 := by
  cases aidO <;> rfl

theorem inProgressOf_some_some (a : Nat) (b now : Int) :
    inProgressOf (some a) (some b) now = now - b := rfl

theorem foldTiming_nonneg (m : List (Nat × TimingRecord)) (aidO : Option Nat)
    (astO : Option Int) (now : Int) (hm : recsNonneg m)
    (hast : ∀ a, astO = some a → a ≤ now) :
    recsNonneg (foldTiming m aidO astO now) := by
  cases aidO with
  | none => rw [foldTiming_none_left]; exact hm
  | some aid =>
    cases astO with
    | none => rw [foldTiming_none_right]; exact hm
    | some ast =>
      by_cases hg : (aid != 0 && ast != 0) = true
      · rw [foldTiming_some_some, if_pos hg]
        apply recsNonneg_mapSet _ _ _ hm
        have h1 : 0 ≤ ((mapGet m aid).getD
            { openedAt := now, totalActiveTime := 0 }).totalActiveTime := by
          rw [getD_tot]
          exact getD_tot_nonneg m aid hm
        have h2 : ast ≤ now := hast ast rfl
        show 0 ≤ ((mapGet m aid).getD
            { openedAt := now, totalActiveTime := 0 }).totalActiveTime + (now - ast)
        linarith
      · rw [foldTiming_some_some, if_neg hg]; exact hm

theorem foldTiming_sum_le (m : List (Nat × TimingRecord)) (aidO : Option Nat)
    (astO : Option Int) (now : Int) (hm : recsNonneg m)
    (hast : ∀ a, astO = some a → a ≤ now) :
    sumTotalActive (foldTiming m aidO astO now)
      ≤ sumTotalActive m + inProgressOf aidO astO now := by
  cases aidO with
  | none => rw [foldTiming_none_left, inProgressOf_none_left]; linarith
  | some aid =>
    cases astO with
    | none => rw [foldTiming_none_right, inProgressOf_none_right]; linarith
    | some ast =>
      rw [inProgressOf_some_some]
      by_cases hg : (aid != 0 && ast != 0) = true
      · rw [foldTiming_some_some, if_pos hg, sumTotalActive_mapSet]
        have h1 : ((mapGet m aid).getD
            { openedAt := now, totalActiveTime := 0 }).totalActiveTime
              = ((mapGet m aid).map TimingRecord.totalActiveTime).getD 0 := getD_tot _ _
        show sumTotalActive m
            + (((mapGet m aid).getD
                { openedAt := now, totalActiveTime := 0 }).totalActiveTime + (now - ast))
            - ((mapGet m aid).map TimingRecord.totalActiveTime).getD 0
          ≤ sumTotalActive m + (now - ast)
        rw [h1]
        ring_nf
        linarith
      · rw [foldTiming_some_some, if_neg hg]
        have h2 : ast ≤ now := hast ast rfl
        linarith

theorem foldTiming_get_mono (m : List (Nat × TimingRecord)) (aidO : Option Nat)
    (astO : Option Int) (now : Int) (id : Nat) (r : TimingRecord)
    (hast : ∀ a, astO = some a → a ≤ now) (h : mapGet m id = some r) :
    ∃ r', mapGet (foldTiming m aidO astO now) id = some r' ∧
      r.totalActiveTime ≤ r'.totalActiveTime ∧ r.openedAt = r'.openedAt := by
  cases aidO with
  | none => rw [foldTiming_none_left]; exact ⟨r, h, le_refl _, rfl⟩
  | some aid =>
    cases astO with
    | none => rw [foldTiming_none_right]; exact ⟨r, h, le_refl _, rfl⟩
    | some ast =>
      by_cases hg : (aid != 0 && ast != 0) = true
      · rw [foldTiming_some_some, if_pos hg]
        by_cases hid : id = aid
        · subst hid
          refine ⟨_, mapGet_mapSet_self _ _ _, ?_, ?_⟩
          · rw [h]
            have := hast ast rfl
            show r.totalActiveTime ≤ (Option.getD (some r) _).totalActiveTime + (now - ast)
            simp only [Option.getD_some]
            linarith
          · rw [h]; rfl
        · rw [mapGet_mapSet_ne _ _ _ _ hid]
          exact ⟨r, h, le_refl _, rfl⟩
      · rw [foldTiming_some_some, if_neg hg]
        exact ⟨r, h, le_refl _, rfl⟩

/-! ### The time-accounting trace invariant -/

/-- Reachability invariant of the accounting state at wall-clock time `t`,
for traces whose first event happened no earlier than `t0 ≥ 0`: the active
interval (when any) started inside `[t0, t]`, all stored totals are
nonnegative, and stored plus in-progress time is bounded by `t - t0`. -/
def TraceInv (t0 : Int) (s : BgState) (t : Int) : Prop :=
  0 ≤ t0 ∧ t0 ≤ t ∧
  (∀ a, s.activeStartTime = some a → t0 ≤ a ∧ a ≤ t) ∧
  recsNonneg s.tabTimingData ∧
  sumTotalActive s.tabTimingData + inProgress s t ≤ t - t0

theorem traceInv_init (d : String) (t0 : Int) (h0 : 0 ≤ t0) :
    TraceInv t0 (initState d) t0 := by
  refine ⟨h0, le_refl _, ?_, ?_, ?_⟩
  · intro a ha; cases ha
  · intro p hp; cases hp
  · show sumTotalActive [] + inProgressOf none none t0 ≤ t0 - t0
    rw [inProgressOf_none_left]
    simp [sumTotalActive]

theorem traceInv_mono (t0 : Int) (s : BgState) (t t' : Int)
    (h : TraceInv t0 s t) (ht : t ≤ t') : TraceInv t0 s t' := by
  obtain ⟨h0, h1, h2, h3, h4⟩ := h
  obtain ⟨tm, aidO, astO, info, closed, day⟩ := s
  unfold inProgress at h4
  dsimp only at h2 h3 h4
  refine ⟨h0, le_trans h1 ht,
    fun a ha => ⟨(h2 a ha).1, le_trans (h2 a ha).2 ht⟩, h3, ?_⟩
  unfold inProgress
  dsimp only
  cases aidO with
  | none =>
    rw [inProgressOf_none_left] at h4 ⊢
    linarith
  | some aid =>
    cases astO with
    | none =>
      rw [inProgressOf_none_right] at h4 ⊢
      linarith
    | some ast =>
      rw [inProgressOf_some_some] at h4 ⊢
      linarith

theorem traceInv_start (t0 : Int) (s : BgState) (id : Nat) (t : Int)
    (h : TraceInv t0 s t) : TraceInv t0 (startActiveTracking s id t) t := by
  obtain ⟨h0, h1, h2, h3, h4⟩ := h
  have hast : ∀ a, s.activeStartTime = some a → a ≤ t := fun a ha => (h2 a ha).2
  have hnn := foldTiming_nonneg s.tabTimingData s.activeTabId s.activeStartTime t h3 hast
  have hsum := foldTiming_sum_le s.tabTimingData s.activeTabId s.activeStartTime t h3 hast
  unfold inProgress at h4
  unfold startActiveTracking foldActive
  dsimp only
  by_cases hhas : mapHas (foldTiming s.tabTimingData s.activeTabId s.activeStartTime t) id
  · rw [if_pos hhas]
    refine ⟨h0, h1, ?_, hnn, ?_⟩
    · intro a ha
      simp only at ha
      cases ha
      exact ⟨h1, le_refl _⟩
    · show sumTotalActive (foldTiming s.tabTimingData s.activeTabId s.activeStartTime t)
          + inProgressOf (some id) (some t) t ≤ t - t0
      rw [inProgressOf_some_some]
      linarith
  · rw [if_neg hhas]
    refine ⟨h0, h1, ?_, ?_, ?_⟩
    · intro a ha
      simp only at ha
      cases ha
      exact ⟨h1, le_refl _⟩
    · exact recsNonneg_mapSet _ _ _ hnn (le_refl 0)
    · show sumTotalActive (mapSet
            (foldTiming s.tabTimingData s.activeTabId s.activeStartTime t) id
            { openedAt := t, totalActiveTime := 0 })
          + inProgressOf (some id) (some t) t ≤ t - t0
      rw [inProgressOf_some_some, sumTotalActive_mapSet]
      have := getD_tot_nonneg
        (foldTiming s.tabTimingData s.activeTabId s.activeStartTime t) id hnn
      simp only
      linarith

theorem traceInv_stop (t0 : Int) (s : BgState) (t : Int)
    (h : TraceInv t0 s t) : TraceInv t0 (stopActiveTracking s t) t := by
  obtain ⟨h0, h1, h2, h3, h4⟩ := h
  have hast : ∀ a, s.activeStartTime = some a → a ≤ t := fun a ha => (h2 a ha).2
  unfold inProgress at h4
  unfold stopActiveTracking foldActive
  dsimp only
  refine ⟨h0, h1, ?_, ?_, ?_⟩
  · intro a ha
    exact Option.noConfusion ha
  · exact foldTiming_nonneg _ _ _ _ h3 hast
  · show sumTotalActive (foldTiming s.tabTimingData s.activeTabId s.activeStartTime t)
        + inProgressOf none none t ≤ t - t0
    rw [inProgressOf_none_left]
    have := foldTiming_sum_le s.tabTimingData s.activeTabId s.activeStartTime t h3 hast
    linarith

theorem traceInv_flush (t0 : Int) (s : BgState) (t : Int)
    (h : TraceInv t0 s t) : TraceInv t0 (periodicFlush s t) t := by
  obtain ⟨h0, h1, h2, h3, h4⟩ := h
  obtain ⟨tm, aidO, astO, info, closed, day⟩ := s
  unfold inProgress at h4
  dsimp only at h2 h3 h4
  have hast : ∀ a, astO = some a → a ≤ t := fun a ha => (h2 a ha).2
  cases aidO with
  | none => cases astO <;> exact ⟨h0, h1, h2, h3, h4⟩
  | some aid =>
    cases astO with
    | none => exact ⟨h0, h1, h2, h3, h4⟩
    | some ast =>
      by_cases hg : (aid != 0 && ast != 0) = true
      · unfold periodicFlush foldActive
        dsimp only
        rw [if_pos hg]
        refine ⟨h0, h1, ?_, ?_, ?_⟩
        · intro a haa
          dsimp only at haa
          cases haa
          exact ⟨h1, le_refl _⟩
        · exact foldTiming_nonneg tm (some aid) (some ast) t h3 hast
        · show sumTotalActive (foldTiming tm (some aid) (some ast) t)
              + inProgressOf (some aid) (some t) t ≤ t - t0
          rw [inProgressOf_some_some]
          have hsum := foldTiming_sum_le tm (some aid) (some ast) t h3 hast
          rw [inProgressOf_some_some] at hsum h4
          linarith
      · unfold periodicFlush
        dsimp only
        rw [if_neg hg]
        exact ⟨h0, h1, h2, h3, h4⟩

/-- The archive-building middle part of `onRemoved` touches neither the
timing map nor the active-tab fields nor the info map. -/
theorem onRemoved_projs (s : BgState) (id : Nat) (t : Int) :
    (onRemoved s id t).tabTimingData
        = mapDelete (if s.activeTabId == some id
            then stopActiveTracking s t else s).tabTimingData id ∧
    (onRemoved s id t).activeTabId
        = (if s.activeTabId == some id then stopActiveTracking s t else s).activeTabId ∧
    (onRemoved s id t).activeStartTime
        = (if s.activeTabId == some id then stopActiveTracking s t else s).activeStartTime ∧
    (onRemoved s id t).tabInfoData
        = mapDelete (if s.activeTabId == some id
            then stopActiveTracking s t else s).tabInfoData id ∧
    (onRemoved s id t).currentDay
        = (if s.activeTabId == some id then stopActiveTracking s t else s).currentDay := by
  unfold onRemoved
  dsimp only
  cases hE : mapGet (if s.activeTabId == some id
      then stopActiveTracking s t else s).tabTimingData id <;>
    exact ⟨rfl, rfl, rfl, rfl, rfl⟩

theorem traceInv_remove (t0 : Int) (s : BgState) (id : Nat) (t : Int)
    (h : TraceInv t0 s t) : TraceInv t0 (onRemoved s id t) t := by
  have h1inv : TraceInv t0
      (if s.activeTabId == some id then stopActiveTracking s t else s) t := by
    by_cases hc : s.activeTabId == some id
    · rw [if_pos hc]; exact traceInv_stop t0 s t h
    · rw [if_neg hc]; exact h
  obtain ⟨h0, h1, h2, h3, h4⟩ := h1inv
  obtain ⟨hp1, hp2, hp3, _, _⟩ := onRemoved_projs s id t
  refine ⟨h0, h1, ?_, ?_, ?_⟩
  · intro a ha
    rw [hp3] at ha
    exact h2 a ha
  · rw [hp1]
    exact recsNonneg_mapDelete _ _ h3
  · unfold inProgress at h4 ⊢
    rw [hp1, hp2, hp3]
    have hdel := sumTotalActive_mapDelete_le
      (if s.activeTabId == some id then stopActiveTracking s t else s).tabTimingData id h3
    linarith

theorem traceInv_applyOp (t0 : Int) (s : BgState) (op : Op) (t : Int)
    (h : TraceInv t0 s t) (hop : isTimedEv op = true) :
    TraceInv t0 (applyOp s op t) t := by
  cases op with
  | activate id => exact traceInv_start t0 s id t h
  | deactivate => exact traceInv_stop t0 s t h
  | flush => exact traceInv_flush t0 s t h
  | remove id => exact traceInv_remove t0 s id t h
  | updateInfo id tab => cases hop
  | msgGetTiming => cases hop
  | msgGetClosed => cases hop
  | msgUpdateTiming id td => cases hop
  | msgReopen url title r => cases hop
  | cleanup today => cases hop

theorem traceInv_runTrace (t0 : Int) (s : BgState) (evs : List (Op × Int)) (t : Int)
    (h : TraceInv t0 s t) (hm : monoTimesB t evs = true)
    (hk : evs.all (fun e => isTimedEv e.1) = true) :
    TraceInv t0 (runTrace s evs) (lastTimeD t evs) := by
  induction evs generalizing s t with
  | nil => exact h
  | cons e rest ih =>
    simp only [monoTimesB, Bool.and_eq_true, decide_eq_true_eq] at hm
    simp only [List.all_cons, Bool.and_eq_true] at hk
    exact ih (applyOp s e.1 e.2) e.2
      (traceInv_applyOp t0 s e.1 e.2 (traceInv_mono t0 s t e.2 h hm.1) hk.1)
      hm.2 hk.2

/-- C1: Over every trace of activation, deactivation, flush, and removal
events with non-decreasing timestamps starting at `t0 ≥ 0`, the sum of all
stored `totalActiveTime` values plus the in-progress interval of the
currently active tab (`now` minus `activeStartTime`, if one is active)
never exceeds the wall-clock time elapsed since the first event: no
millisecond of active time is double-counted. -/
theorem c1_active_time_sum_bounded (d : String) (evs : List (Op × Int)) (t0 now : Int)
    (h0 : 0 ≤ t0) (hk : evs.all (fun e => isTimedEv e.1) = true)
    (hm : monoTimesB t0 evs = true) (hlast : lastTimeD t0 evs ≤ now) :
    sumTotalActive (runTrace (initState d) evs).tabTimingData
      + inProgress (runTrace (initState d) evs) now ≤ now - t0 := by
  have hinv := traceInv_runTrace t0 (initState d) evs t0
    (traceInv_init d t0 h0) hm hk
  have hinv' := traceInv_mono t0 _ _ now hinv hlast
  exact hinv'.2.2.2.2

/-- Witness for C1 at a concrete trace: activate tab 1 at 3, flush at 4,
switch to tab 2 at 7, remove tab 2 at 9; at time 10 the accounted time is
bounded by 10 − 2. -/
theorem c1_witness :
    sumTotalActive (runTrace (initState "day")
        [(Op.activate 1, 3), (Op.flush, 4), (Op.activate 2, 7), (Op.remove 2, 9)]).tabTimingData
      + inProgress (runTrace (initState "day")
        [(Op.activate 1, 3), (Op.flush, 4), (Op.activate 2, 7), (Op.remove 2, 9)]) 10
      ≤ 10 - 2 :=
  c1_active_time_sum_bounded "day"
    [(Op.activate 1, 3), (Op.flush, 4), (Op.activate 2, 7), (Op.remove 2, 9)]
    2 10 (by decide) (by decide) (by decide) (by decide)

/-! ### Characterising the removal listener -/

theorem foldTiming_get_openedAt (m : List (Nat × TimingRecord)) (aidO : Option Nat)
    (astO : Option Int) (now : Int) (id : Nat) (r : TimingRecord)
    (h : mapGet m id = some r) :
    ∃ r', mapGet (foldTiming m aidO astO now) id = some r'
      ∧ r'.openedAt = r.openedAt := by
  cases aidO with
  | none => rw [foldTiming_none_left]; exact ⟨r, h, rfl⟩
  | some aid =>
    cases astO with
    | none => rw [foldTiming_none_right]; exact ⟨r, h, rfl⟩
    | some ast =>
      by_cases hg : (aid != 0 && ast != 0) = true
      · rw [foldTiming_some_some, if_pos hg]
        by_cases hid : id = aid
        · subst hid
          refine ⟨_, mapGet_mapSet_self _ _ _, ?_⟩
          rw [h]
          rfl
        · rw [mapGet_mapSet_ne _ _ _ _ hid]
          exact ⟨r, h, rfl⟩
      · rw [foldTiming_some_some, if_neg hg]
        exact ⟨r, h, rfl⟩

/-- `unshift` followed by the cap at 100 always yields the new head over
the first 99 old records. -/
theorem archive_cons_cap (r : ClosedTabData) (l : List ClosedTabData) :
    (if (r :: l).length > 100 then (r :: l).take 100 else r :: l)
      = r :: l.take 99 := by
  by_cases h : l.length ≥ 100
  · rw [if_pos (by simp only [List.length_cons]; omega)]
    have h100 : (100 : Nat) = 99 + 1 := rfl
    rw [h100, List.take_succ_cons]
  · rw [if_neg (by simp only [List.length_cons]; omega)]
    rw [List.take_of_length_le (by omega)]

/-- Full characterisation of `onRemoved` when the removed tab has a timing
record: the tab disappears from both per-tab maps, one archive record is
prepended (with the archive capped), and the remaining fields are those
after the conditional `stopActiveTracking`. -/
theorem onRemoved_eq (s : BgState) (id : Nat) (now : Int) (td : TimingRecord)
    (h : mapGet s.tabTimingData id = some td) :
    ∃ tot : Int,
      onRemoved s id now =
        { tabTimingData := mapDelete (if s.activeTabId == some id
              then stopActiveTracking s now else s).tabTimingData id
          activeTabId := (if s.activeTabId == some id
              then stopActiveTracking s now else s).activeTabId
          activeStartTime := (if s.activeTabId == some id
              then stopActiveTracking s now else s).activeStartTime
          tabInfoData := mapDelete s.tabInfoData id
          closedTabsData :=
            { id := id
              closedAt := now
              openedAt := td.openedAt
              totalActiveTime := tot
              totalTimeOpen := now - td.openedAt
              title := ((mapGet s.tabInfoData id).map TabInfo.title).getD "Untitled Tab"
              url := ((mapGet s.tabInfoData id).map TabInfo.url).getD "Unknown"
              favIconUrl := (mapGet s.tabInfoData id).bind TabInfo.favIconUrl }
            :: s.closedTabsData.take 99
          currentDay := s.currentDay } := by
  obtain ⟨tm, aidO, astO, info, closed, day⟩ := s
  dsimp only at h ⊢
  by_cases hc : (aidO == some id) = true
  · have haid : aidO = some id := by simpa using hc
    subst haid
    rw [if_pos hc]
    obtain ⟨td', hget, hopen⟩ :=
      foldTiming_get_openedAt tm (some id) astO now id td h
    refine ⟨td'.totalActiveTime, ?_⟩
    unfold onRemoved stopActiveTracking foldActive
    dsimp only
    rw [if_pos hc]
    dsimp only
    rw [hget]
    dsimp only
    rw [show ((none : Option Nat) == some id) = false from rfl]
    rw [Bool.false_and, if_neg Bool.false_ne_true]
    rw [hopen, archive_cons_cap]
  · have haid : aidO ≠ some id := by simpa using hc
    rw [if_neg hc]
    refine ⟨td.totalActiveTime, ?_⟩
    unfold onRemoved
    dsimp only
    rw [if_neg hc]
    dsimp only
    rw [h]
    dsimp only
    rw [show (aidO == some id) = false from by simpa using hc]
    rw [Bool.false_and, if_neg Bool.false_ne_true]
    rw [archive_cons_cap]

theorem foldTiming_get_ne (m : List (Nat × TimingRecord)) (aid : Nat)
    (astO : Option Int) (now : Int) (j : Nat) (hj : j ≠ aid) :
    mapGet (foldTiming m (some aid) astO now) j = mapGet m j := by
  cases astO with
  | none => rw [foldTiming_none_right]
  | some ast =>
    by_cases hg : (aid != 0 && ast != 0) = true
    · rw [foldTiming_some_some, if_pos hg, mapGet_mapSet_ne _ _ _ _ hj]
    · rw [foldTiming_some_some, if_neg hg]

/-- Removal of `id` leaves every other tab's timing and info entries
untouched. -/
theorem onRemoved_frame (s : BgState) (id : Nat) (now : Int) (j : Nat) (hj : j ≠ id) :
    mapGet (onRemoved s id now).tabTimingData j = mapGet s.tabTimingData j ∧
    mapGet (onRemoved s id now).tabInfoData j = mapGet s.tabInfoData j := by
  obtain ⟨hp1, _, _, hp4, _⟩ := onRemoved_projs s id now
  constructor
  · rw [hp1, mapGet_mapDelete_ne _ _ _ hj]
    by_cases hc : (s.activeTabId == some id) = true
    · rw [if_pos hc]
      have ha : s.activeTabId = some id := by simpa using hc
      show mapGet (foldTiming s.tabTimingData s.activeTabId s.activeStartTime now) j
          = mapGet s.tabTimingData j
      rw [ha]
      exact foldTiming_get_ne _ _ _ _ _ hj
    · rw [if_neg hc]
  · rw [hp4, mapGet_mapDelete_ne _ _ _ hj]
    by_cases hc : (s.activeTabId == some id) = true
    · rw [if_pos hc]
      rfl
    · rw [if_neg hc]

/-- C5: destroying a tab that has a timing record drops it from the timing
store and from the info store, prepends exactly one new archive record at
the head (the rest of the archive being its first 99 old records), leaves
every other tab's timing and info entries unchanged, and the archive
length becomes `min (old + 1) 100`. -/
theorem c5_archive_on_removal (s : BgState) (id : Nat) (now : Int) (td : TimingRecord)
    (h : mapGet s.tabTimingData id = some td) :
    mapGet (onRemoved s id now).tabTimingData id = none ∧
    mapGet (onRemoved s id now).tabInfoData id = none ∧
    (∃ r : ClosedTabData, r.id = id ∧ r.closedAt = now ∧
      (onRemoved s id now).closedTabsData = r :: s.closedTabsData.take 99) ∧
    (∀ j, j ≠ id →
      mapGet (onRemoved s id now).tabTimingData j = mapGet s.tabTimingData j ∧
      mapGet (onRemoved s id now).tabInfoData j = mapGet s.tabInfoData j) ∧
    (onRemoved s id now).closedTabsData.length
      = min (s.closedTabsData.length + 1) 100 := by
  obtain ⟨tot, heq⟩ := onRemoved_eq s id now td h
  refine ⟨?_, ?_, ?_, fun j hj => onRemoved_frame s id now j hj, ?_⟩
  · rw [heq]
    exact mapGet_mapDelete_self _ _
  · rw [heq]
    exact mapGet_mapDelete_self _ _
  · rw [heq]
    exact ⟨_, rfl, rfl, rfl⟩
  · rw [heq]
    show (_ :: s.closedTabsData.take 99).length = _
    rw [List.length_cons, List.length_take]
    omega

/-- Concrete state for the C5 witness: one tab (7) with timing and info
records and an empty archive. -/
def c5state : BgState :=
  { tabTimingData := [(7, { openedAt := 10, totalActiveTime := 3 })]
    activeTabId := none
    activeStartTime := none
    tabInfoData := [(7, { title := "T", url := "https://t", favIconUrl := none, lastUpdated := 0 })]
    closedTabsData := []
    currentDay := "d" }

theorem c5_witness :
    mapGet (onRemoved c5state 7 50).tabTimingData 7 = none ∧
    mapGet (onRemoved c5state 7 50).tabInfoData 7 = none ∧
    (onRemoved c5state 7 50).closedTabsData.length = min (0 + 1) 100 :=
  ⟨(c5_archive_on_removal c5state 7 50 { openedAt := 10, totalActiveTime := 3 } rfl).1,
   (c5_archive_on_removal c5state 7 50 { openedAt := 10, totalActiveTime := 3 } rfl).2.1,
   (c5_archive_on_removal c5state 7 50 { openedAt := 10, totalActiveTime := 3 } rfl).2.2.2.2⟩

/-- C6: with the archive already holding 100 records, archiving one more
tab yields again 100 records, headed by the new record, with the oldest
(last) record dropped. -/
theorem c6_archive_capped (s : BgState) (id : Nat) (now : Int) (td : TimingRecord)
    (h : mapGet s.tabTimingData id = some td)
    (hlen : s.closedTabsData.length = 100) :
    ∃ r : ClosedTabData,
      (onRemoved s id now).closedTabsData = r :: s.closedTabsData.dropLast ∧
      r.id = id ∧
      (onRemoved s id now).closedTabsData.length = 100 := by
  obtain ⟨tot, heq⟩ := onRemoved_eq s id now td h
  refine ⟨{ id := id, closedAt := now, openedAt := td.openedAt, totalActiveTime := tot,
            totalTimeOpen := now - td.openedAt,
            title := ((mapGet s.tabInfoData id).map TabInfo.title).getD "Untitled Tab",
            url := ((mapGet s.tabInfoData id).map TabInfo.url).getD "Unknown",
            favIconUrl := (mapGet s.tabInfoData id).bind TabInfo.favIconUrl },
          ?_, rfl, ?_⟩
  · rw [heq]
    show _ :: s.closedTabsData.take 99 = _ :: s.closedTabsData.dropLast
    rw [List.dropLast_eq_take, hlen]
  · rw [heq]
    show (_ :: s.closedTabsData.take 99).length = 100
    rw [List.length_cons, List.length_take, hlen]
    omega

/-- Concrete state for the C6 witness: archive already at the 100-record
cap. -/
def c6state : BgState :=
  { tabTimingData := [(1, { openedAt := 0, totalActiveTime := 0 })]
    activeTabId := none
    activeStartTime := none
    tabInfoData := []
    closedTabsData := List.replicate 100
      { id := 9, closedAt := 0, openedAt := 0, totalActiveTime := 0,
        totalTimeOpen := 0, title := "x", url := "y", favIconUrl := none }
    currentDay := "d" }

theorem c6_witness : (onRemoved c6state 1 5).closedTabsData.length = 100 := by
  obtain ⟨r, _, _, hl⟩ :=
    c6_archive_capped c6state 1 5 { openedAt := 0, totalActiveTime := 0 } rfl
      (by simp [c6state, List.length_replicate])
  exact hl

/-- C9 (amended): a tab destroyed with a timing record but no info record
is archived with the placeholder title `"Untitled Tab"` and the
placeholder address `"Unknown"`. -/
theorem c9_placeholders (s : BgState) (id : Nat) (now : Int) (td : TimingRecord)
    (h1 : mapGet s.tabTimingData id = some td)
    (h2 : mapGet s.tabInfoData id = none) :
    ∃ r : ClosedTabData, (onRemoved s id now).closedTabsData.head? = some r ∧
      r.title = "Untitled Tab" ∧ r.url = "Unknown" := by
  obtain ⟨tot, heq⟩ := onRemoved_eq s id now td h1
  rw [heq]
  refine ⟨_, rfl, ?_, ?_⟩
  · show ((mapGet s.tabInfoData id).map TabInfo.title).getD "Untitled Tab" = "Untitled Tab"
    rw [h2]
    rfl
  · show ((mapGet s.tabInfoData id).map TabInfo.url).getD "Unknown" = "Unknown"
    rw [h2]
    rfl

/-- Concrete state for C9: tab 5 has a timing record but no info record. -/
def c9state : BgState :=
  { tabTimingData := [(5, { openedAt := 0, totalActiveTime := 0 })]
    activeTabId := none
    activeStartTime := none
    tabInfoData := []
    closedTabsData := []
    currentDay := "d" }

/-- C9 counterexample: the archived title placeholder is `"Untitled Tab"`,
not `"Untitled"` as the claim states. -/
theorem c9_counterexample :
    ((onRemoved c9state 5 100).closedTabsData.head?).map ClosedTabData.title
        = some "Untitled Tab" ∧
    ((onRemoved c9state 5 100).closedTabsData.head?).map ClosedTabData.title
        ≠ some "Untitled" := by
  decide

theorem c9_witness :
    ((onRemoved c9state 5 100).closedTabsData.head?).map ClosedTabData.title
      = some "Untitled Tab" := by
  obtain ⟨r, hr, ht, _⟩ :=
    c9_placeholders c9state 5 100 { openedAt := 0, totalActiveTime := 0 } rfl rfl
  rw [hr, Option.map_some', ht]

/-! ### Day rollover -/

theorem dailyCleanup_eq_self (u : BgState) (today : String)
    (h : u.currentDay = today) : dailyCleanup u today = u := by
  unfold dailyCleanup
  rw [if_neg (by simp [h])]

theorem applyOp_currentDay (s : BgState) (op : Op) (t : Int)
    (hop : isCleanupOp op = false) :
    (applyOp s op t).currentDay = s.currentDay := by
  obtain ⟨tm, aidO, astO, info, closed, day⟩ := s
  cases op with
  | activate tabId =>
    show (startActiveTracking _ _ _).currentDay = _
    unfold startActiveTracking foldActive
    dsimp only
    split <;> rfl
  | deactivate => rfl
  | flush =>
    show (periodicFlush _ _).currentDay = _
    unfold periodicFlush
    cases aidO with
    | none => cases astO <;> rfl
    | some aid =>
      cases astO with
      | none => rfl
      | some ast =>
        dsimp only
        split <;> rfl
  | remove tabId =>
    show (onRemoved ⟨tm, aidO, astO, info, closed, day⟩ tabId t).currentDay = day
    obtain ⟨_, _, _, _, hp5⟩ := onRemoved_projs ⟨tm, aidO, astO, info, closed, day⟩ tabId t
    rw [hp5]
    split <;> rfl
  | updateInfo tabId tab =>
    show (updateTabInfo _ _ _ _).currentDay = _
    unfold updateTabInfo
    cases tab.url with
    | none => rfl
    | some u =>
      dsimp only
      split <;> rfl
  | msgGetTiming =>
    show (handleGetTimingData _ _).1.currentDay = _
    unfold handleGetTimingData
    cases aidO with
    | none => cases astO <;> rfl
    | some aid =>
      cases astO with
      | none => rfl
      | some ast =>
        dsimp only
        split
        · cases mapGet tm aid <;> rfl
        · rfl
  | msgGetClosed => rfl
  | msgUpdateTiming tabId td => rfl
  | msgReopen url title hostResult => cases hostResult <;> rfl
  | cleanup today => cases hop

theorem runTrace_currentDay (s : BgState) (evs : List (Op × Int))
    (hk : evs.all (fun e => !(isCleanupOp e.1)) = true) :
    (runTrace s evs).currentDay = s.currentDay := by
  induction evs generalizing s with
  | nil => rfl
  | cons e rest ih =>
    simp only [List.all_cons, Bool.and_eq_true, Bool.not_eq_true'] at hk
    show (runTrace (applyOp s e.1 e.2) rest).currentDay = _
    rw [ih _ (by simpa using hk.2), applyOp_currentDay s e.1 e.2 hk.1]

/-- C7: when the stored day marker differs from the current day's marker,
one cleanup check clears the archive and adopts the marker; after any
sequence of non-cleanup events (e.g. removals archiving fresh records),
a second check against the same day marker changes nothing — the records
archived after the rollover are not cleared again. -/
theorem c7_rollover_idempotent (s : BgState) (today : String)
    (evs : List (Op × Int)) (h : s.currentDay ≠ today)
    (hk : evs.all (fun e => !(isCleanupOp e.1)) = true) :
    (dailyCleanup s today).closedTabsData = [] ∧
    (dailyCleanup s today).currentDay = today ∧
    dailyCleanup (runTrace (dailyCleanup s today) evs) today
      = runTrace (dailyCleanup s today) evs := by
  have hclear : dailyCleanup s today
      = { s with currentDay := today, closedTabsData := [] } := by
    unfold dailyCleanup
    rw [if_pos (by simp [Ne.symm h])]
  refine ⟨by rw [hclear], by rw [hclear], ?_⟩
  apply dailyCleanup_eq_self
  rw [runTrace_currentDay _ _ hk, hclear]

/-- Concrete state and trace for the C7 witness. -/
def c7state : BgState :=
  { tabTimingData := [(3, { openedAt := 0, totalActiveTime := 1 })]
    activeTabId := none
    activeStartTime := none
    tabInfoData := []
    closedTabsData := [{ id := 8, closedAt := 0, openedAt := 0, totalActiveTime := 0,
                         totalTimeOpen := 0, title := "old", url := "u", favIconUrl := none }]
    currentDay := "Mon Jan 01 2024" }

theorem c7_witness :
    (dailyCleanup c7state "Tue Jan 02 2024").closedTabsData = [] ∧
    (dailyCleanup c7state "Tue Jan 02 2024").currentDay = "Tue Jan 02 2024" ∧
    dailyCleanup (runTrace (dailyCleanup c7state "Tue Jan 02 2024")
        [(Op.remove 3, 7)]) "Tue Jan 02 2024"
      = runTrace (dailyCleanup c7state "Tue Jan 02 2024") [(Op.remove 3, 7)] :=
  c7_rollover_idempotent c7state "Tue Jan 02 2024" [(Op.remove 3, 7)]
    (by decide) (by decide)

/-- C8 (amended): a `reopenTab` request the host rejects is answered with
`{success: false, error: <message>}` and leaves the state untouched (no
timing or info record is created); a request the host accepts is answered
with `{success: true, tabId: <new id>}` — the new id is reported under the
key `tabId`, not `newId` — and also leaves the state untouched. -/
theorem c8_reopen_responses (s : BgState) (url title msg : String) (nid : Nat) :
    (handleReopenTab s url title (Except.error msg)).1 = s ∧
    (handleReopenTab s url title (Except.error msg)).2
      = [("success", RespVal.b false), ("error", RespVal.s msg)] ∧
    (handleReopenTab s url title (Except.ok nid)).1 = s ∧
    (handleReopenTab s url title (Except.ok nid)).2
      = [("success", RespVal.b true), ("tabId", RespVal.n nid)] :=
  ⟨rfl, rfl, rfl, rfl⟩

/-- Concrete state for the C8 counterexample. -/
def c8state : BgState :=
  { tabTimingData := []
    activeTabId := none
    activeStartTime := none
    tabInfoData := []
    closedTabsData := []
    currentDay := "d" }

/-- C8 counterexample: the success response of `reopenTab` carries no
`newId` key; the new tab id is reported under `tabId` instead. -/
theorem c8_counterexample :
    List.lookup "newId" (handleReopenTab c8state "https://a" "t" (Except.ok 42)).2
        = none ∧
    List.lookup "tabId" (handleReopenTab c8state "https://a" "t" (Except.ok 42)).2
        = some (RespVal.n 42) := by
  decide

/-- C10: the `updateTabTiming` message replaces the stored timing record
for the given id wholesale with the caller-supplied record, leaves every
other id's record, the active-tab fields, the info store, the archive and
the day marker unchanged, and answers success. -/
theorem c10_updateTabTiming_replaces (s : BgState) (tabId : Nat) (td : TimingRecord) :
    mapGet (handleUpdateTabTiming s tabId td).1.tabTimingData tabId = some td ∧
    (∀ j, j ≠ tabId → mapGet (handleUpdateTabTiming s tabId td).1.tabTimingData j
        = mapGet s.tabTimingData j) ∧
    (handleUpdateTabTiming s tabId td).1.activeTabId = s.activeTabId ∧
    (handleUpdateTabTiming s tabId td).1.activeStartTime = s.activeStartTime ∧
    (handleUpdateTabTiming s tabId td).1.tabInfoData = s.tabInfoData ∧
    (handleUpdateTabTiming s tabId td).1.closedTabsData = s.closedTabsData ∧
    (handleUpdateTabTiming s tabId td).1.currentDay = s.currentDay ∧
    (handleUpdateTabTiming s tabId td).2 = true :=
  ⟨mapGet_mapSet_self _ _ _, fun j hj => mapGet_mapSet_ne _ _ _ _ hj,
   rfl, rfl, rfl, rfl, rfl, rfl⟩

/-- Concrete state for the C10 witness. -/
def c10state : BgState :=
  { tabTimingData := [(1, { openedAt := 0, totalActiveTime := 100 }),
                      (2, { openedAt := 5, totalActiveTime := 7 })]
    activeTabId := none
    activeStartTime := none
    tabInfoData := []
    closedTabsData := []
    currentDay := "d" }

theorem c10_witness :
    mapGet (handleUpdateTabTiming c10state 1
        { openedAt := 0, totalActiveTime := 5 }).1.tabTimingData 1
      = some { openedAt := 0, totalActiveTime := 5 } ∧
    mapGet (handleUpdateTabTiming c10state 1
        { openedAt := 0, totalActiveTime := 5 }).1.tabTimingData 2
      = mapGet c10state.tabTimingData 2 :=
  ⟨(c10_updateTabTiming_replaces c10state 1 _).1,
   (c10_updateTabTiming_replaces c10state 1 _).2.1 2 (by decide)⟩

/-! ### Monotonicity of stored totals (C4) -/

theorem startActiveTracking_timing (s : BgState) (tabId : Nat) (now : Int) :
    (startActiveTracking s tabId now).tabTimingData
      = if mapHas (foldTiming s.tabTimingData s.activeTabId s.activeStartTime now) tabId
        then foldTiming s.tabTimingData s.activeTabId s.activeStartTime now
        else mapSet (foldTiming s.tabTimingData s.activeTabId s.activeStartTime now)
               tabId { openedAt := now, totalActiveTime := 0 } := by
  unfold startActiveTracking foldActive
  dsimp only
  split <;> rfl

theorem periodicFlush_timing (s : BgState) (now : Int) :
    (periodicFlush s now).tabTimingData
      = foldTiming s.tabTimingData s.activeTabId s.activeStartTime now := by
  obtain ⟨tm, aidO, astO, info, closed, day⟩ := s
  show (periodicFlush _ _).tabTimingData = _
  unfold periodicFlush
  cases aidO with
  | none => cases astO <;> rfl
  | some aid =>
    cases astO with
    | none => rfl
    | some ast =>
      dsimp only
      by_cases hg : (aid != 0 && ast != 0) = true
      · rw [if_pos hg]
        rfl
      · rw [if_neg hg]
        show tm = foldTiming tm (some aid) (some ast) now
        rw [foldTiming_some_some, if_neg hg]

theorem updateTabInfo_timing (s : BgState) (tabId : Nat) (tab : TabArg) (now : Int) :
    (updateTabInfo s tabId tab now).tabTimingData = s.tabTimingData := by
  unfold updateTabInfo
  cases tab.url with
  | none => rfl
  | some u =>
    dsimp only
    split <;> rfl

theorem dailyCleanup_timing (s : BgState) (today : String) :
    (dailyCleanup s today).tabTimingData = s.tabTimingData := by
  unfold dailyCleanup
  split <;> rfl

/-- `getTimingData` can only change the `currentActiveTime` field of the
active tab's stored record; `openedAt` and `totalActiveTime` survive. -/
theorem handleGetTimingData_get (s : BgState) (now : Int) (j : Nat) (r : TimingRecord)
    (h : mapGet s.tabTimingData j = some r) :
    ∃ r', mapGet (handleGetTimingData s now).1.tabTimingData j = some r' ∧
      r'.totalActiveTime = r.totalActiveTime ∧ r'.openedAt = r.openedAt := by
  obtain ⟨tm, aidO, astO, info, closed, day⟩ := s
  dsimp only at h ⊢
  cases aidO with
  | none => exact ⟨r, by cases astO <;> exact h, rfl, rfl⟩
  | some aid =>
    cases astO with
    | none => exact ⟨r, h, rfl, rfl⟩
    | some ast =>
      unfold handleGetTimingData
      dsimp only
      by_cases hg : (aid != 0 && ast != 0) = true
      · rw [if_pos hg]
        cases hq : mapGet tm aid with
        | none => exact ⟨r, h, rfl, rfl⟩
        | some q =>
          dsimp only
          by_cases hj : j = aid
          · subst hj
            have hrq : r = q := by rw [h] at hq; exact Option.some.inj hq
            subst hrq
            exact ⟨_, mapGet_mapSet_self _ _ _, rfl, rfl⟩
          · rw [mapGet_mapSet_ne _ _ _ _ hj]
            exact ⟨r, h, rfl, rfl⟩
      · rw [if_neg hg]
        exact ⟨r, h, rfl, rfl⟩

/-- C4 (amended): no accepted operation other than the wholesale
`updateTabTiming` overwrite ever lowers a live tab's stored
`totalActiveTime` (given that the active interval started no later than
the operation's wall-clock time, as holds on every real trace). -/
theorem c4_no_other_op_lowers_total (s : BgState) (op : Op) (t : Int)
    (hop : isUpdateMsg op = false)
    (hast : ∀ a, s.activeStartTime = some a → a ≤ t)
    (id : Nat) (r r' : TimingRecord)
    (hb : mapGet s.tabTimingData id = some r)
    (ha : mapGet (applyOp s op t).tabTimingData id = some r') :
    r.totalActiveTime ≤ r'.totalActiveTime := by
  cases op with
  | activate tabId =>
    obtain ⟨r1, hr1, hmono, _⟩ := foldTiming_get_mono s.tabTimingData
      s.activeTabId s.activeStartTime t id r hast hb
    have ha' : mapGet (startActiveTracking s tabId t).tabTimingData id = some r' := ha
    rw [startActiveTracking_timing] at ha'
    by_cases hh : mapHas (foldTiming s.tabTimingData s.activeTabId s.activeStartTime t) tabId
    · rw [if_pos hh, hr1] at ha'
      rw [← Option.some.inj ha']
      exact hmono
    · rw [if_neg hh] at ha'
      by_cases hid : id = tabId
      · subst hid
        rw [mapHas_eq, hr1] at hh
        simp at hh
      · rw [mapGet_mapSet_ne _ _ _ _ hid, hr1] at ha'
        rw [← Option.some.inj ha']
        exact hmono
  | deactivate =>
    obtain ⟨r1, hr1, hmono, _⟩ := foldTiming_get_mono s.tabTimingData
      s.activeTabId s.activeStartTime t id r hast hb
    have ha' : mapGet (foldTiming s.tabTimingData s.activeTabId s.activeStartTime t) id
        = some r' := ha
    rw [hr1] at ha'
    rw [← Option.some.inj ha']
    exact hmono
  | flush =>
    obtain ⟨r1, hr1, hmono, _⟩ := foldTiming_get_mono s.tabTimingData
      s.activeTabId s.activeStartTime t id r hast hb
    have ha' : mapGet (periodicFlush s t).tabTimingData id = some r' := ha
    rw [periodicFlush_timing, hr1] at ha'
    rw [← Option.some.inj ha']
    exact hmono
  | remove tabId =>
    by_cases hid : id = tabId
    · subst hid
      have ha' : mapGet (onRemoved s id t).tabTimingData id = some r' := ha
      obtain ⟨hp1, _, _, _, _⟩ := onRemoved_projs s id t
      rw [hp1, mapGet_mapDelete_self] at ha'
      cases ha'
    · have ha' : mapGet (onRemoved s tabId t).tabTimingData id = some r' := ha
      rw [(onRemoved_frame s tabId t id hid).1, hb] at ha'
      rw [← Option.some.inj ha']
  | updateInfo tabId tab =>
    have ha' : mapGet (updateTabInfo s tabId tab t).tabTimingData id = some r' := ha
    rw [updateTabInfo_timing, hb] at ha'
    rw [← Option.some.inj ha']
  | msgGetTiming =>
    obtain ⟨r1, hr1, htot, _⟩ := handleGetTimingData_get s t id r hb
    have ha' : mapGet (handleGetTimingData s t).1.tabTimingData id = some r' := ha
    rw [hr1] at ha'
    rw [← Option.some.inj ha', htot]
  | msgGetClosed =>
    have ha' : mapGet s.tabTimingData id = some r' := ha
    rw [hb] at ha'
    rw [← Option.some.inj ha']
  | msgUpdateTiming tabId td => cases hop
  | msgReopen url title hostResult =>
    have ha' : mapGet (handleReopenTab s url title hostResult).1.tabTimingData id
        = some r' := ha
    have hstate : (handleReopenTab s url title hostResult).1 = s := by
      cases hostResult <;> rfl
    rw [hstate, hb] at ha'
    rw [← Option.some.inj ha']
  | cleanup today =>
    have ha' : mapGet (dailyCleanup s today).tabTimingData id = some r' := ha
    rw [dailyCleanup_timing, hb] at ha'
    rw [← Option.some.inj ha']

/-- Concrete state for the C4 witness and counterexample: tab 1 is active
since time 5 with 100ms already accumulated. -/
def c4state : BgState :=
  { tabTimingData := [(1, { openedAt := 0, totalActiveTime := 100 })]
    activeTabId := some 1
    activeStartTime := some 5
    tabInfoData := []
    closedTabsData := []
    currentDay := "d" }

theorem c4_witness :
    ({ openedAt := 0, totalActiveTime := 100 } : TimingRecord).totalActiveTime
      ≤ ({ openedAt := 0, totalActiveTime := 103 } : TimingRecord).totalActiveTime :=
  c4_no_other_op_lowers_total c4state Op.flush 8 (by decide)
    (by
      intro a hsome
      rw [show c4state.activeStartTime = some 5 from rfl] at hsome
      injection hsome with h5
      subst h5
      decide)
    1 { openedAt := 0, totalActiveTime := 100 }
    { openedAt := 0, totalActiveTime := 103 } rfl (by decide)

/-- C4 counterexample: the `updateTabTiming` message is accepted while tab
1 lives and lowers its stored `totalActiveTime` from 100 to 5. -/
theorem c4_counterexample :
    mapGet c4state.tabTimingData 1
        = some { openedAt := 0, totalActiveTime := 100 } ∧
    mapGet (applyOp c4state
        (Op.msgUpdateTiming 1 { openedAt := 0, totalActiveTime := 5 }) 200).tabTimingData 1
        = some { openedAt := 0, totalActiveTime := 5 } ∧
    ¬ ((100 : Int) ≤ 5) := by
  refine ⟨rfl, ?_, by decide⟩
  decide

/-! ### The getTimingData projection (C3) -/

/-- C3 (amended): while tab `aid` is active since `ast`, `getTimingData`
answers with that tab's record augmented by
`currentActiveTime = now − ast` on top of the stored `totalActiveTime`;
it never changes any stored `openedAt` or `totalActiveTime`, and a second
identical call returns the same state and the same response (the baseline
is not incremented).  However, through the aliasing of
`Object.fromEntries`, the stored record of the active tab itself acquires
the `currentActiveTime` field: the stored timing state is *not* left
completely unchanged. -/
theorem c3_getTimingData_aliasing (s : BgState) (now : Int) (aid : Nat) (ast : Int)
    (r : TimingRecord)
    (h1 : s.activeTabId = some aid) (h2 : s.activeStartTime = some ast)
    (h3 : aid ≠ 0) (h4 : ast ≠ 0)
    (h5 : mapGet s.tabTimingData aid = some r) :
    mapGet (handleGetTimingData s now).2.1 aid
      = some { openedAt := r.openedAt, totalActiveTime := r.totalActiveTime,
               currentActiveTime := some (now - ast) } ∧
    (∀ j, (mapGet (handleGetTimingData s now).1.tabTimingData j).map
          (fun q => (q.openedAt, q.totalActiveTime))
        = (mapGet s.tabTimingData j).map (fun q => (q.openedAt, q.totalActiveTime))) ∧
    handleGetTimingData (handleGetTimingData s now).1 now = handleGetTimingData s now ∧
    (handleGetTimingData s now).1.tabTimingData
      = mapSet s.tabTimingData aid
          { openedAt := r.openedAt, totalActiveTime := r.totalActiveTime,
            currentActiveTime := some (now - ast) } := by
  obtain ⟨tm, aidO, astO, info, closed, day⟩ := s
  dsimp only at h1 h2 h5 ⊢
  subst h1
  subst h2
  have hg : (aid != 0 && ast != 0) = true := by
    simp only [Bool.and_eq_true, bne_iff_ne]
    exact ⟨h3, h4⟩
  have heq : handleGetTimingData ⟨tm, some aid, some ast, info, closed, day⟩ now
      = (⟨mapSet tm aid { openedAt := r.openedAt, totalActiveTime := r.totalActiveTime, currentActiveTime := some (now - ast) }, some aid, some ast, info, closed, day⟩,
         (mapSet tm aid { openedAt := r.openedAt, totalActiveTime := r.totalActiveTime, currentActiveTime := some (now - ast) }, some aid)) := by
    unfold handleGetTimingData
    dsimp only
    rw [if_pos hg, h5]
  rw [heq]
  refine ⟨mapGet_mapSet_self _ _ _, ?_, ?_, rfl⟩
  · intro j
    dsimp only
    by_cases hj : j = aid
    · subst hj
      rw [mapGet_mapSet_self, h5]
      rfl
    · rw [mapGet_mapSet_ne _ _ _ _ hj]
  · have h5' : mapGet (mapSet tm aid
        { openedAt := r.openedAt, totalActiveTime := r.totalActiveTime,
          currentActiveTime := some (now - ast) }) aid
        = some { openedAt := r.openedAt, totalActiveTime := r.totalActiveTime,
                 currentActiveTime := some (now - ast) } := mapGet_mapSet_self _ _ _
    unfold handleGetTimingData
    dsimp only
    rw [if_pos hg, h5']
    dsimp only
    rw [mapSet_same _ _ _ h5']

/-- Concrete state for C3: tab 2 active since 3000 with stored baseline
100. -/
def c3state : BgState :=
  { tabTimingData := [(2, { openedAt := 0, totalActiveTime := 100 })]
    activeTabId := some 2
    activeStartTime := some 3000
    tabInfoData := []
    closedTabsData := []
    currentDay := "d" }

/-- C3 counterexample: the query is not a pure read — after one
`getTimingData` call at `now = 7000` the stored record of the active tab
has gained a `currentActiveTime` field, so the stored timing state
differs from what it was (while the response does carry
`currentActiveTime = 4000` on the unchanged baseline 100). -/
theorem c3_counterexample :
    (handleGetTimingData c3state 7000).1 ≠ c3state ∧
    mapGet (handleGetTimingData c3state 7000).1.tabTimingData 2
      = some { openedAt := 0, totalActiveTime := 100, currentActiveTime := some 4000 } := by
  decide

theorem c3_witness :
    mapGet (handleGetTimingData c3state 7000).2.1 2
      = some { openedAt := (0 : Int), totalActiveTime := (100 : Int),
               currentActiveTime := some (7000 - 3000 : Int) } :=
  (c3_getTimingData_aliasing c3state 7000 2 3000
    { openedAt := 0, totalActiveTime := 100 }
    rfl rfl (by decide) (by decide) rfl).1

/-! ### The C2 scenario -/

/-- C2: relative to any positive epoch base `b` (`Date.now()` is always
positive), run: tab 1 activated at `b` (t=0), tab 2 activated at
`b + 5000` (deactivating tab 1), tab 1 reactivated at `b + 8000`, tab 1
removed at `b + 10000`.  After the first deactivation tab 1's stored
`totalActiveTime` is 5000; the archived record produced at removal has
`totalActiveTime = 7000` (the in-progress interval folded in at
destruction) and `totalTimeOpen = 10000`. -/
theorem c2_scenario (d : String) (b : Int) (hb : 0 < b) :
    (mapGet (runTrace (initState d)
        [(Op.activate 1, b), (Op.activate 2, b + 5000)]).tabTimingData 1).map
        TimingRecord.totalActiveTime = some 5000 ∧
    ∃ r : ClosedTabData,
      (runTrace (initState d)
          [(Op.activate 1, b), (Op.activate 2, b + 5000),
           (Op.activate 1, b + 8000), (Op.remove 1, b + 10000)]).closedTabsData.head?
        = some r ∧
      r.totalActiveTime = 7000 ∧ r.totalTimeOpen = 10000 := by
  have hb' : (b != 0) = true := by
    simp only [bne_iff_ne]
    omega
  have hb5 : (b + 5000 != 0) = true := by
    simp only [bne_iff_ne]
    omega
  have hb8 : (b + 8000 != 0) = true := by
    simp only [bne_iff_ne]
    omega
  have a1 : b + 5000 - b = 5000 := by ring
  have a2 : b + 8000 - (b + 5000) = 3000 := by ring
  have a3 : b + 10000 - (b + 8000) = 2000 := by ring
  have a4 : b + 10000 - b = 10000 := by ring
  have hnb : ((none : Option Nat) == some 1) = false := rfl
  constructor
  · norm_num [runTrace, applyOp, startActiveTracking, foldActive, foldTiming,
      initState, mapGet, mapSet, mapHas, List.find?, hb', hb5, a1]
  · refine ⟨{ id := 1, closedAt := b + 10000, openedAt := b, totalActiveTime := 7000,
              totalTimeOpen := 10000, title := "Untitled Tab", url := "Unknown",
              favIconUrl := none }, ?_, rfl, rfl⟩
    norm_num [runTrace, applyOp, startActiveTracking, stopActiveTracking, foldActive,
      foldTiming, onRemoved, initState, mapGet, mapSet, mapHas, mapDelete,
      truthyTime, List.find?, List.filter, hb', hb5, hb8, a1, a2, a3, a4, hnb]

theorem c2_witness :
    (mapGet (runTrace (initState "day")
        [(Op.activate 1, 1), (Op.activate 2, 1 + 5000)]).tabTimingData 1).map
        TimingRecord.totalActiveTime = some 5000 :=
  (c2_scenario "day" 1 (by decide)).1
